import Mathlib

/-!
# Verification of the SKU manager's core logic

This file gives a shallow embedding, in Lean 4, of the pure core of the
tile-SKU manager application (`app.py`): the EAN-13 check-digit routine,
the EAN-13 builder, the SKU / full-SPCode builders, the per-(brand, size)
sequence allocator, product deletion, per-product image deletion, the
save-time validation, and the image-ingestion resize decision.  Strings are
modelled as `List Char`; machine integers as `Nat` (all integer values that
occur in the modelled code are non-negative); the two spreadsheet files as
two lists of 19-field rows; Python's float rounding as exact rational
arithmetic with round-half-to-even.  Theorems about these definitions
settle the specification's claims about the program.
-/

set_option maxHeartbeats 1000000

abbrev Str : Type := List Char

/-- `int(d)` on a single digit character: its code point minus 48. -/
def charToDigit (c : Char) : Nat := c.toNat - 48

/-- `int(s)` on a string of decimal digit characters (Python `int`,
restricted to the non-negative, all-digit inputs the app feeds it). -/
def strToNat (s : Str) : Nat := s.foldl (fun a c => 10 * a + charToDigit c) 0

/-- Fuel-indexed decimal formatter (most significant digit first).
The fuel argument makes the recursion structural so that terms reduce. -/
def natToDigitsAux : Nat → Nat → Str
  | _, 0 => []
  | 0, _ + 1 => []
  | fuel + 1, n + 1 => natToDigitsAux fuel ((n + 1) / 10) ++ [Nat.digitChar ((n + 1) % 10)]

/-- `str(n)` for a natural number `n`: its decimal digits, `"0"` for zero. -/
def natToDigits (n : Nat) : Str :=
  if n = 0 then ['0'] else natToDigitsAux n n

/-- `s.zfill(w)` / `s.rjust(w, "0")`: left-pad with `'0'` to width `w`. -/
def zfill (w : Nat) (s : Str) : Str := List.replicate (w - s.length) '0' ++ s

/-- `s.strip()`: remove leading and trailing whitespace. -/
def pyStrip (s : Str) : Str :=
  ((s.dropWhile Char.isWhitespace).reverse.dropWhile Char.isWhitespace).reverse

/-- `s.isdigit()`: non-empty and all characters decimal digits. -/
def isDigitStr (s : Str) : Prop := s ≠ [] ∧ ∀ c ∈ s, c.isDigit = true

instance (s : Str) : Decidable (isDigitStr s) := by unfold isDigitStr; infer_instance

/-- Elements of a list at even indices 0, 2, 4, … — the translation of the
Python slice `digits[0::2]`. -/
def everyOther : List Nat → List Nat
  | [] => []
  | [a] => [a]
  | a :: _ :: rest => a :: everyOther rest

/-- The pair (sum of digits at odd 1-based positions,
sum of digits at even 1-based positions), written the way the claim
describes the standard EAN-13 weighting. -/
def posSums : List Nat → Nat × Nat
  | [] => (0, 0)
  | a :: rest => ((posSums rest).2 + a, (posSums rest).1)

/-- The claim's statement of the standard EAN-13 check digit: sum of the
odd-position digits, plus three times the sum of the even-position digits,
then `(10 - total % 10) % 10`. -/
def specCheck (ds : List Nat) : Nat :=
  (10 - ((posSums ds).1 + 3 * (posSums ds).2) % 10) % 10

/-- `ean13_checkdigit` (app.py:176-182), the numeric value before `str()`:
`odd_sum = sum(digits[0::2])`, `even_sum = sum(digits[1::2]) * 3`,
`check = (10 - (total % 10)) % 10`. -/
def ean13_check (base12 : Str) : Nat :=
  let digits := base12.map charToDigit
  let odd_sum := (everyOther digits).sum
  let even_sum := (everyOther digits.tail).sum * 3
  let total := odd_sum + even_sum
  (10 - total % 10) % 10

/-- `ean13_checkdigit` (app.py:176-182): the check digit as a string. -/
def ean13_checkdigit (base12 : Str) : Str := [Nat.digitChar (ean13_check base12)]

/-- `build_ean13` (app.py:184-190).  The sequence argument is the parsed
integer value of `int(spcode)`; the code formats it as `str(...).zfill(3)`,
keeps only digit characters of the concatenation, pads on the left with
zeros below 12 characters (`rjust`), keeps the last 12 characters
(`base[-12:]`) otherwise, and appends the check digit. -/
def build_ean13 (country company brand_id : Str) (spcode : Nat) : Str :=
  let base := (country ++ company ++ brand_id ++ zfill 3 (natToDigits spcode)).filter Char.isDigit
  let base12 := if base.length < 12 then zfill 12 base else base.drop (base.length - 12)
  base12 ++ ean13_checkdigit base12

/-- The EAN-13 builder as claim C2 words it: identical to `build_ean13`
except that an over-long base is *right*-truncated, i.e. the first 12
digits are kept (`base[:12]`) instead of the last 12. -/
def claimed_build_ean13 (country company brand_id : Str) (spcode : Nat) : Str :=
  let base := (country ++ company ++ brand_id ++ zfill 3 (natToDigits spcode)).filter Char.isDigit
  let base12 := if base.length < 12 then zfill 12 base else base.take 12
  base12 ++ ean13_checkdigit base12

/-- The rightmost `n` elements of a list. -/
def rtake (n : Nat) (l : Str) : Str := l.drop (l.length - n)

/-- The amended description of the 12-digit base: the rightmost 12
characters of the digit-filtered concatenation once it has been prefixed
with twelve `'0'`s (a single expression covering both the padding and the
left-truncation branch). -/
def amended_base (country company brand_id : Str) (spcode : Nat) : Str :=
  rtake 12 (List.replicate 12 '0' ++
    (country ++ company ++ brand_id ++ zfill 3 (natToDigits spcode)).filter Char.isDigit)

/-- `build_sku` (app.py:193-194): `brand + size + mp + str(int(spcode)).zfill(3)`.
The sequence argument is the parsed integer value. -/
def build_sku (brand_code size_code matt_polished : Str) (spcode : Nat) : Str :=
  brand_code ++ size_code ++ matt_polished ++ zfill 3 (natToDigits spcode)

/-- `build_full_spcode` (app.py:197-198): textually the same formatting
as `build_sku`. -/
def build_full_spcode (brand_code size_code matt_polished : Str) (spcode : Nat) : Str :=
  brand_code ++ size_code ++ matt_polished ++ zfill 3 (natToDigits spcode)

/-- One spreadsheet row, with the 19 columns of `COLUMNS` (app.py:123-131),
all stored as strings exactly as pandas does with `dtype=str`. -/
structure Row where
  timestamp : Str
  brandCode : Str
  brandName : Str
  brandID : Str
  sizeLabel : Str
  sizeCode : Str
  surfaceLabel : Str
  surfaceCode : Str
  mattPolished : Str
  spcode : Str
  sku : Str
  commercialName : Str
  faces : Str
  batch : Str
  country : Str
  company : Str
  ean13 : Str
  imagePaths : Str
  notes : Str
deriving DecidableEq

/-- The two spreadsheet files: `products.xlsx` (active) and
`deleted_products.xlsx` (deleted). -/
structure AppState where
  active : List Row
  deleted : List Row
deriving DecidableEq

/-- A brand entry of `BRAND_LIST` (app.py:56-61). -/
structure Brand where
  code : Str
  name : Str
  id : Str
deriving DecidableEq

/-- `BRAND_LIST` (app.py:56-61). -/
def BRAND_LIST : List Brand :=
  [⟨"VE".toList, "Vesta".toList, "0".toList⟩,
   ⟨"OM".toList, "One Max".toList, "1".toList⟩,
   ⟨"GA".toList, "Granca".toList, "2".toList⟩,
   ⟨"SA".toList, "STA".toList, "3".toList⟩]

/-- `SIZES` (app.py:67-77): label to size code. -/
def SIZES : List (Str × Str) :=
  [("60x60".toList, "6060".toList), ("80x80".toList, "8080".toList),
   ("40x80".toList, "4080".toList), ("60x120".toList, "6120".toList),
   ("100x100".toList, "1010".toList), ("120x120".toList, "1212".toList),
   ("80x160".toList, "8160".toList), ("100x200".toList, "1020".toList),
   ("120x240".toList, "1224".toList)]

/-- `SURFACE_OPTIONS` (app.py:80-86): checkbox label to single-letter code. -/
def SURFACE_OPTIONS : List (Str × Str) :=
  [("White Body".toList, "W".toList), ("Microcid Glaze".toList, "M".toList),
   ("Scratch-Resistant Glaze".toList, "S".toList), ("Crystal Glaze".toList, "C".toList),
   ("Deep Color".toList, "D".toList)]

/-- The sequence-field parser used by `next_spcode_for` (app.py:316):
`int(str(x).strip()) if str(x).strip().isdigit() else 0`. -/
def parseSeqField (s : Str) : Nat :=
  if isDigitStr (pyStrip s) then strToNat (pyStrip s) else 0

/-- The maximum of a pandas integer series, as a left fold from 0 — equal to
the series maximum because every parsed value is non-negative. -/
def seriesMax (l : List Nat) : Nat := l.foldl Nat.max 0

/-- `next_spcode_for` (app.py:308-322): scan the active rows matching the
(brand, size) pair, parse each sequence field (non-numeric as zero), take
the maximum plus one floored at one, and zero-pad to three digits;
`"001"` for an empty table or an empty selection. -/
def next_spcode_for (brand_code size_code : Str) (table : List Row) : Str :=
  if table.isEmpty then "001".toList
  else
    let sel := table.filter (fun r => r.brandCode == brand_code && r.sizeCode == size_code)
    if sel.isEmpty then "001".toList
    else
      let nums := sel.map (fun r => parseSeqField r.spcode)
      let nxt := seriesMax nums + 1
      let nxt := if nxt < 1 then 1 else nxt
      zfill 3 (natToDigits nxt)

/-- The sequence allocator as a state operation: `next_spcode_for` only
calls `load_df` and never `save_df`, so the stored state passes through
untouched. -/
def next_spcode_op (brand_code size_code : Str) (st : AppState) : Str × AppState :=
  (next_spcode_for brand_code size_code st.active, st)

/-- `ViewerTab.delete_product` (app.py:1049-1069), state part: find the
first active row with the given SKU (no state change when there is none),
append that row to the deleted table, and keep only the active rows whose
SKU differs. -/
def delete_product (sku : Str) (st : AppState) : AppState :=
  match st.active.find? (fun r => r.sku == sku) with
  | none => st
  | some row =>
    { active := st.active.filter (fun r => !(r.sku == sku)),
      deleted := st.deleted ++ [row] }

/-- `";".join(parts)`. -/
def joinSemi : List Str → Str
  | [] => []
  | [p] => p
  | p :: q :: rest => p ++ ';' :: joinSemi (q :: rest)

/-- `s.split(";")`. -/
def splitSemi : Str → List Str
  | [] => [[]]
  | c :: rest =>
    if c = ';' then [] :: splitSemi rest
    else
      match splitSemi rest with
      | [] => [[c]]
      | h :: t => (c :: h) :: t

/-- The image list of a row:
`str(row.get("ImagePaths","")).split(";") if row.get("ImagePaths","") else []`
(app.py:265). -/
def imagesOf (r : Row) : List Str :=
  if r.imagePaths = [] then [] else splitSemi r.imagePaths

/-- `delete_image_from_product` (app.py:259-275), state part: `False` and
no change when no active row has the SKU or the path is not in the first
matching row's image list; otherwise remove the first occurrence of the
path and store the re-joined list on every row with that SKU. -/
def delete_image_from_product (sku img_path : Str) (st : AppState) : Bool × AppState :=
  match st.active.find? (fun r => r.sku == sku) with
  | none => (false, st)
  | some row =>
    if img_path ∈ imagesOf row then
      (true, { st with active := st.active.map (fun r =>
        if r.sku == sku then { r with imagePaths := joinSemi ((imagesOf row).erase img_path) } else r) })
    else (false, st)

/-- The validated, normalised field values built by `validate_inputs`
(app.py:657-673). -/
structure ValidData where
  brand_code : Str
  brand_name : Str
  brand_id : Str
  size_label : Str
  size_code : Str
  surface_label : Str
  surface_code : Str
  matt_polished : Str
  spcode : Str
  commercial_name : Str
  faces : Nat
  batch : Str
  country : Str
  company : Str
  notes : Str
deriving DecidableEq

/-- The raw entry-form values read by `validate_inputs` (app.py:627-656).
`surfaceFlags` are the five surface checkboxes in `SURFACE_OPTIONS` order. -/
structure FormInput where
  brand : Str
  sizeLabel : Str
  surfaceFlags : List Bool
  mattPolished : Str
  spcode : Str
  faces : Str
  country : Str
  company : Str
  batch : Str
  commercialName : Str
  notes : Str
deriving DecidableEq

/-- `", ".join(parts)`. -/
def joinCommaSpace : List Str → Str
  | [] => []
  | [p] => p
  | p :: q :: rest => p ++ ',' :: ' ' :: joinCommaSpace (q :: rest)

/-- `validate_inputs` (app.py:627-673): each failed check yields `None`
(an error message in the app); success yields the normalised data. -/
def validate_inputs (inp : FormInput) : Option ValidData :=
  match BRAND_LIST.find? (fun b => b.code == inp.brand) with
  | none => none
  | some br =>
  match SIZES.find? (fun p => p.1 == inp.sizeLabel) with
  | none => none
  | some sz =>
  let chosen := ((SURFACE_OPTIONS.zip inp.surfaceFlags).filter (fun p => p.2)).map (fun p => p.1)
  let surface_codes := (chosen.map (fun p => p.2)).flatten
  let surface_labels := joinCommaSpace (chosen.map (fun p => p.1))
  if ¬(inp.mattPolished = "0".toList ∨ inp.mattPolished = "1".toList) then none
  else
  let sp := pyStrip inp.spcode
  if ¬(isDigitStr sp ∧ 1 ≤ strToNat sp ∧ strToNat sp ≤ 999) then none
  else
  let faces := pyStrip inp.faces
  if ¬(isDigitStr faces ∧ 1 ≤ strToNat faces) then none
  else
  let country := pyStrip inp.country
  if ¬(isDigitStr country ∧ (country.length = 2 ∨ country.length = 3)) then none
  else
  let company := pyStrip inp.company
  if ¬(isDigitStr company ∧ 4 ≤ company.length ∧ company.length ≤ 9) then none
  else
  let batch := pyStrip inp.batch
  if batch ≠ [] ∧ ¬(batch.take 3 = "LOT".toList ∧ batch.length = 8 ∧
      isDigitStr ((batch.drop 3).take 2) ∧ isDigitStr ((batch.drop 5).take 3)) then none
  else
  let cname := pyStrip inp.commercialName
  if cname = [] then none
  else
  some { brand_code := inp.brand, brand_name := br.name, brand_id := br.id,
         size_label := inp.sizeLabel, size_code := sz.2,
         surface_label := surface_labels, surface_code := surface_codes,
         matt_polished := inp.mattPolished,
         spcode := zfill 3 (natToDigits (strToNat sp)),
         commercial_name := cname, faces := strToNat faces, batch := batch,
         country := country, company := company, notes := pyStrip inp.notes }

/-- The outcome of `EntryTab.save_product` (app.py:675-742). -/
inductive SaveResult where
  | validationError
  | dup
  | saved (sku : Str)
deriving DecidableEq

/-- The row appended by a successful save (app.py:711-731).  `now` stands
for the wall-clock timestamp and `imgPaths` for the joined list of image
files written on disk, both environment inputs of the embedding. -/
def mkNewRow (now : Str) (d : ValidData) (sku ean imgPaths : Str) : Row :=
  { timestamp := now, brandCode := d.brand_code, brandName := d.brand_name,
    brandID := d.brand_id, sizeLabel := d.size_label, sizeCode := d.size_code,
    surfaceLabel := d.surface_label, surfaceCode := d.surface_code,
    mattPolished := d.matt_polished, spcode := d.spcode, sku := sku,
    commercialName := d.commercial_name, faces := natToDigits d.faces,
    batch := d.batch, country := d.country, company := d.company,
    ean13 := ean, imagePaths := imgPaths, notes := d.notes }

/-- `EntryTab.save_product` (app.py:675-742), state part: a validation
failure or a duplicate SKU leaves the stored table untouched; otherwise
the new row is appended and the table written back. -/
def save_product (now imgPaths : Str) (inp : FormInput) (st : AppState) : SaveResult × AppState :=
  match validate_inputs inp with
  | none => (.validationError, st)
  | some d =>
    let sku := build_sku d.brand_code d.size_code d.matt_polished (strToNat d.spcode)
    let ean := build_ean13 d.country d.company d.brand_id (strToNat d.spcode)
    if st.active.any (fun r => r.sku == sku) then (.dup, st)
    else (.saved sku, { st with active := st.active ++ [mkNewRow now d sku ean imgPaths] })

/-- `MAX_DIM` (app.py:53). -/
def MAX_DIM : Nat := 2000

/-- Python's `round` on an exact rational: round half to even. -/
def pyRound (q : ℚ) : ℤ :=
  if q - ⌊q⌋ < 1 / 2 then ⌊q⌋
  else if 1 / 2 < q - ⌊q⌋ then ⌊q⌋ + 1
  else if Even ⌊q⌋ then ⌊q⌋ else ⌊q⌋ + 1

/-- A decoded source image: pixel dimensions plus the raw bytes of the
source file. -/
structure PyImage where
  width : Nat
  height : Nat
  bytes : List Nat
deriving DecidableEq

/-- What `resize_and_save` (app.py:201-225) writes on its non-exception
path: either a resized re-encoded image or a byte-for-byte copy keeping
the original extension. -/
inductive ImgResult where
  | resized (nw nh : ℤ) (format : Str)
  | copied (written : List Nat) (ext : Str)
deriving DecidableEq

/-- `resize_and_save` (app.py:201-225), non-exception path: when the larger
dimension exceeds `MAX_DIM`, scale both sides by `MAX_DIM / max(w, h)`
(rounding as Python `int(round(...))` does) and save as PNG; otherwise
`shutil.copy2` the source unchanged under its original extension. -/
def resize_and_save (img : PyImage) (ext : Str) : ImgResult :=
  if MAX_DIM < Nat.max img.width img.height then
    let scale : ℚ := (MAX_DIM : ℚ) / (Nat.max img.width img.height : ℚ)
    .resized (pyRound (img.width * scale)) (pyRound (img.height * scale)) ("PNG".toList)
  else
    .copied img.bytes ext

/-! ## Concrete fixtures used by witnesses and counterexamples -/

/-- A row with every column empty. -/
def emptyRow : Row :=
  { timestamp := [], brandCode := [], brandName := [], brandID := [], sizeLabel := [],
    sizeCode := [], surfaceLabel := [], surfaceCode := [], mattPolished := [], spcode := [],
    sku := [], commercialName := [], faces := [], batch := [], country := [], company := [],
    ean13 := [], imagePaths := [], notes := [] }

/-- A Vesta 60x60 matt product with sequence 001. -/
def c4row1 : Row :=
  { emptyRow with
    brandCode := "VE".toList
    sizeCode := "6060".toList
    mattPolished := "0".toList
    spcode := "001".toList
    sku := "VE60600001".toList }

/-- A Vesta 60x60 matt product with sequence 002. -/
def c4row2 : Row :=
  { emptyRow with
    brandCode := "VE".toList
    sizeCode := "6060".toList
    mattPolished := "0".toList
    spcode := "002".toList
    sku := "VE60600002".toList }

/-- An active table holding sequences 001 and 002 for (VE, 6060). -/
def c4state : AppState := { active := [c4row1, c4row2], deleted := [] }

/-- The stored row matching `c5input`. -/
def c5row : Row :=
  { emptyRow with
    brandCode := "VE".toList
    sizeCode := "6060".toList
    mattPolished := "0".toList
    spcode := "001".toList
    sku := "VE60600001".toList }

/-- A form input that passes every validation check. -/
def c5input : FormInput :=
  { brand := "VE".toList, sizeLabel := "60x60".toList,
    surfaceFlags := [false, false, false, false, false], mattPolished := "0".toList,
    spcode := "001".toList, faces := "1".toList, country := "893".toList,
    company := "12345".toList, batch := [], commercialName := "X".toList, notes := [] }

/-- The validated data `validate_inputs` produces for `c5input`. -/
def c5data : ValidData :=
  { brand_code := "VE".toList, brand_name := "Vesta".toList, brand_id := "0".toList,
    size_label := "60x60".toList, size_code := "6060".toList, surface_label := [],
    surface_code := [], matt_polished := "0".toList, spcode := "001".toList,
    commercial_name := "X".toList, faces := 1, batch := [], country := "893".toList,
    company := "12345".toList, notes := [] }

/-- An active table already holding the SKU that `c5input` would produce. -/
def c5state : AppState := { active := [c5row], deleted := [] }

/-- An image larger than the 2000 px threshold. -/
def c6big : PyImage := { width := 4000, height := 1000, bytes := [1, 2, 3] }

/-- An image within the 2000 px threshold. -/
def c6small : PyImage := { width := 800, height := 600, bytes := [4, 5] }

/-- A first product row for the deletion witness. -/
def c7rowA : Row :=
  { emptyRow with
    brandCode := "VE".toList
    sizeCode := "6060".toList
    mattPolished := "0".toList
    spcode := "001".toList
    sku := "VE60600001".toList }

/-- A second product row, the one that gets deleted. -/
def c7rowB : Row :=
  { emptyRow with
    brandCode := "OM".toList
    sizeCode := "8080".toList
    mattPolished := "1".toList
    spcode := "001".toList
    sku := "OM80801001".toList }

/-- An active table with two products. -/
def c7state : AppState := { active := [c7rowA, c7rowB], deleted := [] }

/-- A product row with two attached images. -/
def c10row : Row :=
  { emptyRow with
    brandCode := "VE".toList
    sizeCode := "6060".toList
    mattPolished := "0".toList
    spcode := "001".toList
    sku := "VE60600001".toList
    imagePaths := "images/a.png;images/b.png".toList }

/-- An active table holding `c10row`. -/
def c10state : AppState := { active := [c10row], deleted := [] }

/-! ## Helper lemmas -/

theorem charToDigit_digitChar {d : Nat} (h : d < 10) : charToDigit (Nat.digitChar d) = d := by
  interval_cases d <;> rfl

theorem digitChar_isDigit {d : Nat} (h : d < 10) : (Nat.digitChar d).isDigit = true := by
  interval_cases d <;> rfl

theorem natToDigitsAux_parse : ∀ (fuel n acc : Nat), n ≤ fuel →
    (natToDigitsAux fuel n).foldl (fun a c => 10 * a + charToDigit c) acc
      = acc * 10 ^ (natToDigitsAux fuel n).length + n := by
  intro fuel
  induction fuel with
  | zero =>
    intro n acc h
    interval_cases n
    simp [natToDigitsAux]
  | succ f ih =>
    intro n acc h
    match n with
    | 0 => simp [natToDigitsAux]
    | m + 1 =>
      have hq : (m + 1) / 10 ≤ f := by
        have := Nat.div_lt_self (Nat.succ_pos m) (by norm_num : 1 < 10)
        omega
      have hr : (m + 1) % 10 < 10 := Nat.mod_lt _ (by norm_num)
      rw [natToDigitsAux, List.foldl_append, ih _ acc hq]
      simp only [List.foldl_cons, List.foldl_nil, List.length_append, List.length_cons,
        List.length_nil, charToDigit_digitChar hr]
      have hdm := Nat.div_add_mod (m + 1) 10
      ring_nf
      omega

theorem strToNat_natToDigits (n : Nat) : strToNat (natToDigits n) = n := by
  unfold strToNat natToDigits
  split
  · simp_all [charToDigit]
  · simpa using natToDigitsAux_parse n n 0 le_rfl

theorem foldl_parse_replicate_zero : ∀ k : Nat,
    (List.replicate k '0').foldl (fun a c => 10 * a + charToDigit c) 0 = 0 := by
  intro k
  induction k with
  | zero => rfl
  | succ m ih => simpa [List.replicate_succ, charToDigit] using ih

theorem strToNat_zfill (w : Nat) (s : Str) : strToNat (zfill w s) = strToNat s := by
  unfold strToNat zfill
  rw [List.foldl_append, foldl_parse_replicate_zero]

theorem natToDigitsAux_all_digits : ∀ (fuel n : Nat), ∀ c ∈ natToDigitsAux fuel n, c.isDigit = true := by
  intro fuel
  induction fuel with
  | zero =>
    intro n c hc
    match n with
    | 0 => simp [natToDigitsAux] at hc
    | _ + 1 => simp [natToDigitsAux] at hc
  | succ f ih =>
    intro n c hc
    match n with
    | 0 => simp [natToDigitsAux] at hc
    | m + 1 =>
      rw [natToDigitsAux, List.mem_append] at hc
      rcases hc with hc | hc
      · exact ih _ c hc
      · simp only [List.mem_singleton] at hc
        subst hc
        exact digitChar_isDigit (Nat.mod_lt _ (by norm_num))

theorem natToDigits_all_digits (n : Nat) : ∀ c ∈ natToDigits n, c.isDigit = true := by
  intro c hc
  unfold natToDigits at hc
  split at hc
  · simp only [List.mem_singleton] at hc
    subst hc
    rfl
  · exact natToDigitsAux_all_digits n n c hc

theorem foldl_max_eq_foldr (l : List Nat) (a : Nat) :
    l.foldl Nat.max a = Nat.max a (l.foldr Nat.max 0) := by
  induction l generalizing a with
  | nil => simp
  | cons x xs ih => simp [ih (Nat.max a x), Nat.max_assoc]

theorem le_foldr_max {a : Nat} {l : List Nat} (h : a ∈ l) : a ≤ l.foldr Nat.max 0 := by
  induction l with
  | nil => cases h
  | cons x xs ih =>
    rcases List.mem_cons.mp h with rfl | h'
    · exact Nat.le_max_left _ _
    · exact le_trans (ih h') (Nat.le_max_right _ _)

theorem everyOther_posSums : ∀ l : List Nat,
    (everyOther l).sum = (posSums l).1 ∧ (everyOther l.tail).sum = (posSums l).2 := by
  intro l
  induction l with
  | nil => exact ⟨rfl, rfl⟩
  | cons a rest ih =>
    refine ⟨?_, ?_⟩
    · match rest with
      | [] => simp [everyOther, posSums]
      | b :: r' =>
        have h2 := ih.2
        simp only [List.tail_cons] at h2
        simp [everyOther, posSums, h2]
        omega
    · simpa [posSums] using ih.1

theorem ean13_check_lt_10 (s : Str) : ean13_check s < 10 :=
  Nat.mod_lt _ (by norm_num)

/-- The single equation describing `next_spcode_for` on every input:
three-digit formatting of one plus the maximum parsed sequence over the
matching rows (zero when there is none). -/
theorem next_spcode_eq (b s : Str) (t : List Row) :
    next_spcode_for b s t =
      zfill 3 (natToDigits
        (((t.filter (fun r => r.brandCode == b && r.sizeCode == s)).map
          (fun r => parseSeqField r.spcode)).foldr Nat.max 0 + 1)) := by
  cases t with
  | nil =>
    simp only [next_spcode_for, List.filter_nil, List.map_nil, List.foldr_nil,
      List.isEmpty_nil, if_true]
    decide
  | cons r0 t' =>
    simp only [next_spcode_for]
    rcases hs : (r0 :: t').filter (fun r => r.brandCode == b && r.sizeCode == s) with _ | ⟨r1, sel'⟩
    · simp only [hs, List.isEmpty_cons, Bool.false_eq_true, if_false, List.isEmpty_nil,
        if_true, List.map_nil, List.foldr_nil]
      decide
    · simp only [hs, List.isEmpty_cons, Bool.false_eq_true, if_false]
      rw [if_neg (by omega)]
      unfold seriesMax
      rw [foldl_max_eq_foldr]
      simp

theorem find?_first {α : Type} (p : α → Bool) (l1 : List α) (r : α) (l2 : List α)
    (hr : p r = true) (h1 : ∀ x ∈ l1, p x = false) :
    (l1 ++ r :: l2).find? p = some r := by
  induction l1 with
  | nil => simp [List.find?_cons, hr]
  | cons a l ih =>
    have ha := h1 a (List.mem_cons_self a l)
    simp only [List.cons_append, List.find?_cons, ha]
    exact ih fun x hx => h1 x (List.mem_cons_of_mem a hx)

theorem filter_not_decomp {α : Type} (p : α → Bool) (l1 : List α) (r : α) (l2 : List α)
    (hr : p r = true) (h1 : ∀ x ∈ l1, p x = false) (h2 : ∀ x ∈ l2, p x = false) :
    (l1 ++ r :: l2).filter (fun x => !p x) = l1 ++ l2 := by
  rw [List.filter_append, List.filter_cons]
  have e1 : l1.filter (fun x => !p x) = l1 :=
    List.filter_eq_self.mpr fun x hx => by simp [h1 x hx]
  have e2 : l2.filter (fun x => !p x) = l2 :=
    List.filter_eq_self.mpr fun x hx => by simp [h2 x hx]
  simp [e1, e2, hr]

theorem map_upd_decomp {α : Type} (p : α → Bool) (f : α → α) (l1 : List α) (r : α) (l2 : List α)
    (hr : p r = true) (h1 : ∀ x ∈ l1, p x = false) (h2 : ∀ x ∈ l2, p x = false) :
    (l1 ++ r :: l2).map (fun x => if p x then f x else x) = l1 ++ f r :: l2 := by
  rw [List.map_append, List.map_cons]
  have e1 : l1.map (fun x => if p x then f x else x) = l1 := by
    induction l1 with
    | nil => rfl
    | cons a l ih =>
      have ha := h1 a (List.mem_cons_self a l)
      simp only [List.map_cons, ha, Bool.false_eq_true, if_false]
      rw [ih fun x hx => h1 x (List.mem_cons_of_mem a hx)]
  have e2 : l2.map (fun x => if p x then f x else x) = l2 := by
    induction l2 with
    | nil => rfl
    | cons a l ih =>
      have ha := h2 a (List.mem_cons_self a l)
      simp only [List.map_cons, ha, Bool.false_eq_true, if_false]
      rw [ih fun x hx => h2 x (List.mem_cons_of_mem a hx)]
  simp [e1, e2, hr]

theorem splitSemi_ne_nil (s : Str) : splitSemi s ≠ [] := by
  induction s with
  | nil => simp [splitSemi]
  | cons c rest ih =>
    rw [splitSemi]
    split
    · exact List.cons_ne_nil _ _
    · rcases hsp : splitSemi rest with _ | ⟨h, t⟩ <;> simp

theorem splitSemi_no_semi : ∀ (s : Str) (x : Str), x ∈ splitSemi s → ';' ∉ x := by
  intro s
  induction s with
  | nil =>
    intro x hx
    simp only [splitSemi, List.mem_singleton] at hx
    subst hx
    simp
  | cons c rest ih =>
    intro x hx
    rw [splitSemi] at hx
    by_cases hc : c = ';'
    · rw [if_pos hc] at hx
      rcases List.mem_cons.mp hx with rfl | hx'
      · simp
      · exact ih x hx'
    · rw [if_neg hc] at hx
      rcases hsp : splitSemi rest with _ | ⟨h, t⟩
      · exact absurd hsp (splitSemi_ne_nil rest)
      · rw [hsp] at hx
        rcases List.mem_cons.mp hx with rfl | hx'
        · intro hmem
          rcases List.mem_cons.mp hmem with h1 | h2
          · exact hc h1.symm
          · exact ih h (hsp ▸ List.mem_cons_self _ _) h2
        · exact ih x (hsp ▸ List.mem_cons_of_mem _ hx')

theorem splitSemi_append : ∀ (p : Str), ';' ∉ p → ∀ (s h : Str) (t : List Str),
    splitSemi s = h :: t → splitSemi (p ++ s) = (p ++ h) :: t := by
  intro p
  induction p with
  | nil =>
    intro _ s h t hs
    simpa using hs
  | cons c p' ih =>
    intro hp s h t hs
    have hc : ¬c = ';' := fun hcc => hp (hcc ▸ List.mem_cons_self _ _)
    have hp' : ';' ∉ p' := fun hm => hp (List.mem_cons_of_mem _ hm)
    rw [List.cons_append, splitSemi, if_neg hc, ih hp' s h t hs]
    simp

theorem splitSemi_joinSemi : ∀ (ls : List Str), (∀ x ∈ ls, ';' ∉ x) → ls ≠ [] →
    splitSemi (joinSemi ls) = ls := by
  intro ls
  induction ls with
  | nil => intro _ hne; exact absurd rfl hne
  | cons p rest ih =>
    intro hsemi _
    have hp : ';' ∉ p := hsemi p (List.mem_cons_self _ _)
    match rest with
    | [] =>
      show splitSemi (joinSemi [p]) = [p]
      have : splitSemi (p ++ []) = (p ++ []) :: [] := splitSemi_append p hp [] [] [] rfl
      simpa [joinSemi] using this
    | q :: rest' =>
      have hrest : ∀ x ∈ q :: rest', ';' ∉ x := fun x hx => hsemi x (List.mem_cons_of_mem _ hx)
      have hih := ih hrest (List.cons_ne_nil _ _)
      show splitSemi (joinSemi (p :: q :: rest')) = p :: q :: rest'
      rw [joinSemi]
      have hsc : splitSemi (';' :: joinSemi (q :: rest')) = [] :: splitSemi (joinSemi (q :: rest')) := by
        rw [splitSemi, if_pos rfl]
      have := splitSemi_append p hp (';' :: joinSemi (q :: rest')) []
        (splitSemi (joinSemi (q :: rest'))) hsc
      rw [this, hih]
      simp

theorem joinSemi_ne_nil (ls : List Str) (h1 : ls ≠ []) (h2 : [] ∉ ls) : joinSemi ls ≠ [] := by
  match ls with
  | [p] =>
    have : p ≠ [] := fun hp => h2 (hp ▸ List.mem_cons_self _ _)
    simpa [joinSemi] using this
  | p :: q :: rest => simp [joinSemi]

theorem pyRound_intCast (n : ℤ) : pyRound (n : ℚ) = n := by
  unfold pyRound
  rw [Int.floor_intCast]
  norm_num

theorem pyRound_le {q : ℚ} {n : ℤ} (h : q ≤ (n : ℚ)) : pyRound q ≤ n := by
  have hf : ⌊q⌋ ≤ n := by
    have := Int.floor_le_floor h
    simpa using this
  have hfl : (⌊q⌋ : ℚ) ≤ q := Int.floor_le q
  unfold pyRound
  split_ifs with h1 h2 h3
  · exact hf
  · have hlt : (⌊q⌋ : ℚ) < (n : ℚ) := by linarith
    have : ⌊q⌋ < n := by exact_mod_cast hlt
    omega
  · exact hf
  · have h4 : q - (⌊q⌋ : ℚ) = 1 / 2 := le_antisymm (not_lt.mp h2) (not_lt.mp h1)
    have hlt : (⌊q⌋ : ℚ) < (n : ℚ) := by linarith
    have : ⌊q⌋ < n := by exact_mod_cast hlt
    omega

/-! ## Claim theorems -/

/-- C1: for every 12-character string of digits, the check-digit function
computes the claim's formula — the sum of the odd-position digits plus
three times the sum of the even-position digits, then
`(10 - total mod 10) mod 10` — and the result is a single digit 0-9
(the standard EAN-13 check-digit algorithm). -/
theorem ean13_checkdigit_matches_standard (base12 : Str) (_hlen : base12.length = 12)
    (_hdig : ∀ c ∈ base12, c.isDigit = true) :
    ean13_check base12 = specCheck (base12.map charToDigit) ∧
    ean13_check base12 < 10 ∧
    ean13_checkdigit base12 = [Nat.digitChar (ean13_check base12)] ∧
    (Nat.digitChar (ean13_check base12)).isDigit = true := by
  refine ⟨?_, ean13_check_lt_10 _, rfl, digitChar_isDigit (ean13_check_lt_10 _)⟩
  simp only [ean13_check, specCheck]
  rw [(everyOther_posSums (base12.map charToDigit)).1,
    (everyOther_posSums (base12.map charToDigit)).2]
  omega

/-- Witness for C1 at the concrete base `893123456789`. -/
theorem ean13_checkdigit_matches_standard_witness :
    ("893123456789".toList.length = 12 ∧ ∀ c ∈ "893123456789".toList, c.isDigit = true) ∧
    (ean13_check ("893123456789".toList) = specCheck (("893123456789".toList).map charToDigit) ∧
     ean13_check ("893123456789".toList) < 10 ∧
     ean13_checkdigit ("893123456789".toList) =
       [Nat.digitChar (ean13_check ("893123456789".toList))] ∧
     (Nat.digitChar (ean13_check ("893123456789".toList))).isDigit = true) :=
  ⟨⟨by decide, by decide⟩, ean13_checkdigit_matches_standard _ (by decide) (by decide)⟩

/-- C2 counterexample: with a 3-digit country, a 9-digit company, a brand id
and sequence 1, the 16-digit base makes the code keep the LAST 12 digits
(`base[-12:]`), not the first 12 as the claim's right-truncation would. -/
theorem build_ean13_truncation_counterexample :
    build_ean13 ("893".toList) ("123456789".toList) ("0".toList) 1 = "2345678900015".toList ∧
    claimed_build_ean13 ("893".toList) ("123456789".toList) ("0".toList) 1 = "8931234567897".toList ∧
    build_ean13 ("893".toList) ("123456789".toList) ("0".toList) 1 ≠
      claimed_build_ean13 ("893".toList) ("123456789".toList) ("0".toList) 1 :=
  ⟨by decide, by decide, by decide⟩

/-- The code's base-selection rule (pad when short, keep the last 12 when
long) is exactly "the rightmost 12 of the zero-prefixed digit string". -/
theorem base12_eq_rtake (d : Str) :
    (if d.length < 12 then zfill 12 d else d.drop (d.length - 12)) =
      rtake 12 (List.replicate 12 '0' ++ d) := by
  unfold rtake
  rw [List.length_append, List.length_replicate]
  have h12 : 12 + d.length - 12 = d.length := by omega
  rw [h12]
  split
  · rename_i hlt
    rw [List.drop_append_of_le_length (by simp; omega)]
    unfold zfill
    congr 1
    rw [List.drop_replicate]
  · have h2 : (List.replicate 12 '0' ++ d).drop 12 = d := by
      have h := List.drop_left (List.replicate 12 '0') d
      rwa [List.length_replicate] at h
    have h3 : ((List.replicate 12 '0' ++ d).drop 12).drop (d.length - 12)
        = (List.replicate 12 '0' ++ d).drop d.length := by
      rw [List.drop_drop]
      congr 1
      omega
    rw [← h3, h2]

/-- C2 amended: `build_ean13` returns a 13-digit string consisting of a
12-digit base — the digit-filtered concatenation, zero-padded on the left
when short and truncated on the LEFT (keeping the rightmost 12 digits)
when long — followed by its check digit. -/
theorem build_ean13_amended_spec (country company brand_id : Str) (n : Nat) :
    build_ean13 country company brand_id n =
      amended_base country company brand_id n ++
        ean13_checkdigit (amended_base country company brand_id n) ∧
    (amended_base country company brand_id n).length = 12 ∧
    (build_ean13 country company brand_id n).length = 13 ∧
    ∀ c ∈ build_ean13 country company brand_id n, c.isDigit = true := by
  have heq : build_ean13 country company brand_id n =
      amended_base country company brand_id n ++
        ean13_checkdigit (amended_base country company brand_id n) := by
    simp only [build_ean13, amended_base]
    rw [base12_eq_rtake]
  have hlen : (amended_base country company brand_id n).length = 12 := by
    unfold amended_base rtake
    rw [List.length_drop, List.length_append, List.length_replicate]
    omega
  refine ⟨heq, hlen, ?_, ?_⟩
  · rw [heq, List.length_append, hlen]
    rfl
  · intro c hc
    rw [heq, List.mem_append] at hc
    rcases hc with hc | hc
    · have hc' : c ∈ List.replicate 12 '0' ++
          (country ++ company ++ brand_id ++ zfill 3 (natToDigits n)).filter Char.isDigit :=
        List.mem_of_mem_drop hc
      rw [List.mem_append] at hc'
      rcases hc' with hc' | hc'
      · rw [List.eq_of_mem_replicate hc']
        rfl
      · exact List.of_mem_filter hc'
    · simp only [ean13_checkdigit, List.mem_singleton] at hc
      subst hc
      exact digitChar_isDigit (ean13_check_lt_10 _)

/-- Witness for the amended C2 at the concrete over-long input. -/
theorem build_ean13_amended_spec_witness :
    build_ean13 ("893".toList) ("123456789".toList) ("0".toList) 1 =
      amended_base ("893".toList) ("123456789".toList) ("0".toList) 1 ++
        ean13_checkdigit (amended_base ("893".toList) ("123456789".toList) ("0".toList) 1) ∧
    (amended_base ("893".toList) ("123456789".toList) ("0".toList) 1).length = 12 ∧
    (build_ean13 ("893".toList) ("123456789".toList) ("0".toList) 1).length = 13 ∧
    ∀ c ∈ build_ean13 ("893".toList) ("123456789".toList) ("0".toList) 1, c.isDigit = true :=
  build_ean13_amended_spec ("893".toList) ("123456789".toList) ("0".toList) 1

/-- C3: the sequence allocator always returns the three-digit zero-padded
rendering of (maximum parsed sequence over the matching active rows,
non-numeric fields parsing as zero) + 1, floored at one; an empty table or
an empty selection contributes a maximum of zero, giving `"001"`. -/
theorem next_spcode_for_spec (b s : Str) (t : List Row) :
    next_spcode_for b s t =
      zfill 3 (natToDigits (Nat.max
        (((t.filter (fun r => r.brandCode == b && r.sizeCode == s)).map
          (fun r => parseSeqField r.spcode)).foldr Nat.max 0 + 1) 1)) ∧
    next_spcode_for b s [] = "001".toList := by
  constructor
  · rw [next_spcode_eq]
    have hm : Nat.max
        (((t.filter (fun r => r.brandCode == b && r.sizeCode == s)).map
          (fun r => parseSeqField r.spcode)).foldr Nat.max 0 + 1) 1 =
        ((t.filter (fun r => r.brandCode == b && r.sizeCode == s)).map
          (fun r => parseSeqField r.spcode)).foldr Nat.max 0 + 1 :=
      Nat.max_eq_left (Nat.le_add_left 1 _)
    rw [hm]
  · rfl

/-- C4 counterexample: with active sequences 001 and 002 for (VE, 6060),
deleting the product with sequence 002 makes the very next allocation for
that pair return 002 again — the deleted product's sequence number. -/
theorem deleted_seq_reallocated_counterexample :
    (delete_product ("VE60600002".toList) c4state).deleted = [c4row2] ∧
    c4row2.spcode = "002".toList ∧
    next_spcode_for ("VE".toList) ("6060".toList)
      (delete_product ("VE60600002".toList) c4state).active = c4row2.spcode :=
  ⟨by decide, by decide, by decide⟩

/-- After the claimed allocation, the value strictly exceeds the parsed
sequence of every matching row of the table it was computed over. -/
theorem alloc_gt_matching (b s : Str) (t : List Row) (r' : Row) (hmem : r' ∈ t)
    (hb : r'.brandCode = b) (hs : r'.sizeCode = s) :
    parseSeqField r'.spcode < strToNat (next_spcode_for b s t) := by
  rw [next_spcode_eq, strToNat_zfill, strToNat_natToDigits]
  have hsel : r' ∈ t.filter (fun r => r.brandCode == b && r.sizeCode == s) := by
    rw [List.mem_filter]
    exact ⟨hmem, by simp [hb, hs]⟩
  have hmm : parseSeqField r'.spcode ∈
      (t.filter (fun r => r.brandCode == b && r.sizeCode == s)).map
        (fun r => parseSeqField r.spcode) :=
    List.mem_map_of_mem _ hsel
  have := le_foldr_max hmm
  omega

/-- C4 amended: allocation is scoped to the active table left by a delete,
and the allocated value strictly exceeds every surviving matching row's
sequence; hence a deleted product's sequence number can only be returned
when it exceeded every surviving sequence for its (brand, size) pair —
deleting the highest-numbered product does free its slot. -/
theorem alloc_after_delete_exceeds_surviving (st : AppState) (sku : Str) (r' : Row)
    (hmem : r' ∈ (delete_product sku st).active) :
    parseSeqField r'.spcode <
      strToNat (next_spcode_for r'.brandCode r'.sizeCode (delete_product sku st).active) :=
  alloc_gt_matching _ _ _ r' hmem rfl rfl

/-- Witness for the amended C4 at a concrete post-deletion state. -/
theorem alloc_after_delete_exceeds_surviving_witness :
    c4row1 ∈ (delete_product ("VE60600002".toList) c4state).active ∧
    parseSeqField c4row1.spcode <
      strToNat (next_spcode_for c4row1.brandCode c4row1.sizeCode
        (delete_product ("VE60600002".toList) c4state).active) :=
  ⟨by decide, alloc_after_delete_exceeds_surviving c4state _ c4row1 (by decide)⟩

/-- C5: a validation failure never touches the stored table, and saving
when the active table already holds a row with the same brand, size,
finish and sequence — whose stored SKU is, as at its own creation, the
SKU built from those fields — is rejected with the table unchanged. -/
theorem save_product_rejects_duplicates_and_bad_input (now imgPaths : Str)
    (inp : FormInput) (st : AppState) :
    (validate_inputs inp = none →
      save_product now imgPaths inp st = (.validationError, st)) ∧
    (∀ d r, validate_inputs inp = some d → r ∈ st.active →
      r.brandCode = d.brand_code → r.sizeCode = d.size_code →
      r.mattPolished = d.matt_polished → strToNat r.spcode = strToNat d.spcode →
      r.sku = build_sku r.brandCode r.sizeCode r.mattPolished (strToNat r.spcode) →
      save_product now imgPaths inp st = (.dup, st)) := by
  constructor
  · intro h
    simp [save_product, h]
  · intro d r hv hmem hb hs hm hq hsku
    have hsku2 : r.sku = build_sku d.brand_code d.size_code d.matt_polished (strToNat d.spcode) := by
      rw [hsku, hb, hs, hm, hq]
    have hany : (st.active.any fun x =>
        x.sku == build_sku d.brand_code d.size_code d.matt_polished (strToNat d.spcode)) = true := by
      rw [List.any_eq_true]
      exact ⟨r, hmem, by simp [hsku2]⟩
    simp [save_product, hv, hany]

/-- Witness for C5: a valid input whose SKU is already stored. -/
theorem save_product_rejects_duplicates_and_bad_input_witness :
    validate_inputs c5input = some c5data ∧
    c5row ∈ c5state.active ∧
    save_product [] [] c5input c5state = (.dup, c5state) :=
  ⟨by decide, by decide,
    (save_product_rejects_duplicates_and_bad_input [] [] c5input c5state).2 c5data c5row
      (by decide) (by decide) (by decide) (by decide) (by decide) (by decide) (by decide)⟩

/-- C6: an image whose larger dimension exceeds `MAX_DIM` is downscaled by
the factor `MAX_DIM / max(w, h)` and re-encoded as PNG, and the resulting
longest side equals `MAX_DIM` exactly; an image at or below the threshold
is copied with its bytes unchanged under its original extension. -/
theorem resize_and_save_spec (img : PyImage) (ext : Str) :
    (MAX_DIM < Nat.max img.width img.height →
      ∃ nw nh : ℤ, resize_and_save img ext = .resized nw nh ("PNG".toList) ∧
        Max.max nw nh = (MAX_DIM : ℤ)) ∧
    (Nat.max img.width img.height ≤ MAX_DIM →
      resize_and_save img ext = .copied img.bytes ext) := by
  constructor
  · intro h
    have hm0 : (0 : ℚ) < ((Nat.max img.width img.height : Nat) : ℚ) := by
      have h0 : 0 < Nat.max img.width img.height :=
        lt_trans (by norm_num [MAX_DIM]) h
      exact_mod_cast h0
    have key : ((Nat.max img.width img.height : Nat) : ℚ) *
        ((MAX_DIM : ℚ) / ((Nat.max img.width img.height : Nat) : ℚ)) = ((MAX_DIM : ℤ) : ℚ) := by
      rw [mul_comm, div_mul_cancel₀ _ (ne_of_gt hm0)]
      push_cast
      ring
    have bound : ∀ a : Nat, a ≤ Nat.max img.width img.height →
        pyRound ((a : ℚ) * ((MAX_DIM : ℚ) / ((Nat.max img.width img.height : Nat) : ℚ))) ≤
          (MAX_DIM : ℤ) := by
      intro a ha
      apply pyRound_le
      calc (a : ℚ) * ((MAX_DIM : ℚ) / ((Nat.max img.width img.height : Nat) : ℚ))
          ≤ ((Nat.max img.width img.height : Nat) : ℚ) *
              ((MAX_DIM : ℚ) / ((Nat.max img.width img.height : Nat) : ℚ)) := by
            apply mul_le_mul_of_nonneg_right
            · exact_mod_cast ha
            · positivity
        _ = ((MAX_DIM : ℤ) : ℚ) := key
    refine ⟨pyRound ((img.width : ℚ) * ((MAX_DIM : ℚ) / ((Nat.max img.width img.height : Nat) : ℚ))),
      pyRound ((img.height : ℚ) * ((MAX_DIM : ℚ) / ((Nat.max img.width img.height : Nat) : ℚ))), ?_, ?_⟩
    · rw [resize_and_save, if_pos h]
    · rcases Nat.le_total img.height img.width with hle | hle
      · have hmaxw : Nat.max img.width img.height = img.width := Nat.max_eq_left hle
        have hw : ((img.width : Nat) : ℚ) = ((Nat.max img.width img.height : Nat) : ℚ) := by
          rw [hmaxw]
        have e1 : pyRound ((img.width : ℚ) *
            ((MAX_DIM : ℚ) / ((Nat.max img.width img.height : Nat) : ℚ))) = (MAX_DIM : ℤ) := by
          rw [hw, key, pyRound_intCast]
        rw [e1]
        exact max_eq_left (bound img.height (Nat.le_max_right _ _))
      · have hmaxh : Nat.max img.width img.height = img.height := Nat.max_eq_right hle
        have hh : ((img.height : Nat) : ℚ) = ((Nat.max img.width img.height : Nat) : ℚ) := by
          rw [hmaxh]
        have e2 : pyRound ((img.height : ℚ) *
            ((MAX_DIM : ℚ) / ((Nat.max img.width img.height : Nat) : ℚ))) = (MAX_DIM : ℤ) := by
          rw [hh, key, pyRound_intCast]
        rw [e2]
        exact max_eq_right (bound img.width (Nat.le_max_left _ _))
  · intro h
    rw [resize_and_save, if_neg (not_lt.mpr h)]

/-- Witness for C6 on a 4000 by 1000 image and an 800 by 600 image. -/
theorem resize_and_save_spec_witness :
    (∃ nw nh : ℤ, resize_and_save c6big (".jpg".toList) = .resized nw nh ("PNG".toList) ∧
      Max.max nw nh = (MAX_DIM : ℤ)) ∧
    resize_and_save c6small (".jpg".toList) = .copied c6small.bytes (".jpg".toList) :=
  ⟨(resize_and_save_spec c6big (".jpg".toList)).1 (by decide),
   (resize_and_save_spec c6small (".jpg".toList)).2 (by decide)⟩

/-- C7: when the active table is l1 ++ [r] ++ l2 with the target SKU
appearing exactly on r, deletion moves precisely r — identical in all 19
fields — to the end of the deleted table and leaves every other active
row in place. -/
theorem delete_product_moves_row (st : AppState) (sku : Str) (l1 : List Row) (r : Row)
    (l2 : List Row) (hdecomp : st.active = l1 ++ r :: l2) (hr : r.sku = sku)
    (h1 : ∀ x ∈ l1, x.sku ≠ sku) (h2 : ∀ x ∈ l2, x.sku ≠ sku) :
    delete_product sku st = { active := l1 ++ l2, deleted := st.deleted ++ [r] } := by
  have hpr : (fun x : Row => x.sku == sku) r = true := by simp [hr]
  have hp1 : ∀ x ∈ l1, (fun x : Row => x.sku == sku) x = false := fun x hx => by
    simp [h1 x hx]
  have hp2 : ∀ x ∈ l2, (fun x : Row => x.sku == sku) x = false := fun x hx => by
    simp [h2 x hx]
  unfold delete_product
  rw [hdecomp, find?_first _ l1 r l2 hpr hp1]
  have hfilter : (l1 ++ r :: l2).filter (fun x => !(x.sku == sku)) = l1 ++ l2 :=
    filter_not_decomp _ l1 r l2 hpr hp1 hp2
  simp only [hfilter]

/-- Witness for C7: deleting the second of two products. -/
theorem delete_product_moves_row_witness :
    c7state.active = [c7rowA] ++ c7rowB :: [] ∧
    delete_product ("OM80801001".toList) c7state =
      { active := [c7rowA] ++ [], deleted := c7state.deleted ++ [c7rowB] } :=
  ⟨by decide,
    delete_product_moves_row c7state ("OM80801001".toList) [c7rowA] c7rowB []
      (by decide) (by decide) (by decide) (by decide)⟩

/-- C8: the allocator is pure — it returns the stored state unchanged, and
running it twice in a row for the same pair gives the same value. -/
theorem next_spcode_op_no_side_effect (b s : Str) (st : AppState) :
    (next_spcode_op b s st).2 = st ∧
    (next_spcode_op b s ((next_spcode_op b s st).2)).1 = (next_spcode_op b s st).1 ∧
    (next_spcode_op b s ((next_spcode_op b s st).2)).2 = st :=
  ⟨rfl, rfl, rfl⟩

/-- C9: `build_sku` and `build_full_spcode` return the identical string —
brand, size, finish, then the 3-digit zero-padded sequence. -/
theorem build_sku_eq_build_full_spcode (b s f : Str) (n : Nat) :
    build_sku b s f n = build_full_spcode b s f n ∧
    build_sku b s f n = b ++ s ++ f ++ zfill 3 (natToDigits n) :=
  ⟨rfl, rfl⟩

/-- A row whose stored image string is the join of a well-formed list of
paths has exactly that list as its image list. -/
theorem imagesOf_set (r' : Row) (ls : List Str) (hip : r'.imagePaths = joinSemi ls)
    (hsemi : ∀ x ∈ ls, ';' ∉ x) (hwf : [] ∉ ls) : imagesOf r' = ls := by
  match ls, hip, hsemi, hwf with
  | [], hip, _, _ =>
    rw [imagesOf, hip]
    simp [joinSemi]
  | p :: rest, hip, hsemi, hwf =>
    have hne : p :: rest ≠ ([] : List Str) := List.cons_ne_nil _ _
    have hjne := joinSemi_ne_nil (p :: rest) hne hwf
    rw [imagesOf, hip, if_neg hjne]
    exact splitSemi_joinSemi (p :: rest) hsemi hne

/-- C10: when no active row has the SKU, or the first row with the SKU does
not list the path, image deletion reports failure and leaves the stored
table unchanged; otherwise it reports success and removes exactly the
first occurrence of that path from the row's image list. -/
theorem delete_image_atomic (st : AppState) (sku img_path : Str) :
    ((∀ x ∈ st.active, x.sku ≠ sku) →
      delete_image_from_product sku img_path st = (false, st)) ∧
    (∀ l1 r l2, st.active = l1 ++ r :: l2 → r.sku = sku → (∀ x ∈ l1, x.sku ≠ sku) →
      (∀ x ∈ l2, x.sku ≠ sku) →
      (img_path ∉ imagesOf r → delete_image_from_product sku img_path st = (false, st)) ∧
      (img_path ∈ imagesOf r → [] ∉ imagesOf r →
        delete_image_from_product sku img_path st =
          (true, { st with active := l1 ++
            { r with imagePaths := joinSemi ((imagesOf r).erase img_path) } :: l2 }) ∧
        imagesOf { r with imagePaths := joinSemi ((imagesOf r).erase img_path) } =
          (imagesOf r).erase img_path)) := by
  constructor
  · intro hnone
    have hfind : st.active.find? (fun x => x.sku == sku) = none := by
      rw [List.find?_eq_none]
      intro x hx
      simp [hnone x hx]
    unfold delete_image_from_product
    rw [hfind]
  · intro l1 r l2 hdecomp hr h1 h2
    have hpr : (fun x : Row => x.sku == sku) r = true := by simp [hr]
    have hp1 : ∀ x ∈ l1, (fun x : Row => x.sku == sku) x = false := fun x hx => by
      simp [h1 x hx]
    have hp2 : ∀ x ∈ l2, (fun x : Row => x.sku == sku) x = false := fun x hx => by
      simp [h2 x hx]
    have hfind : st.active.find? (fun x => x.sku == sku) = some r := by
      rw [hdecomp]
      exact find?_first _ l1 r l2 hpr hp1
    constructor
    · intro hnotin
      unfold delete_image_from_product
      simp only [hfind]
      rw [if_neg hnotin]
    · intro hin hwf
      have himgne : imagesOf r = splitSemi r.imagePaths := by
        unfold imagesOf
        split
        · rename_i hnil
          rw [imagesOf, if_pos hnil] at hin
          cases hin
        · rfl
      have hsemifree : ∀ x ∈ (imagesOf r).erase img_path, ';' ∉ x := by
        intro x hx
        have hx' : x ∈ imagesOf r := (List.erase_sublist _ _).subset hx
        rw [himgne] at hx'
        exact splitSemi_no_semi _ x hx'
      have hwf' : [] ∉ (imagesOf r).erase img_path := fun hmem =>
        hwf ((List.erase_sublist _ _).subset hmem)
      constructor
      · unfold delete_image_from_product
        simp only [hfind]
        rw [if_pos hin, hdecomp,
          map_upd_decomp (fun x : Row => x.sku == sku)
            (fun x => { x with imagePaths := joinSemi ((imagesOf r).erase img_path) })
            l1 r l2 hpr hp1 hp2]
      · exact imagesOf_set _ _ rfl hsemifree hwf'

/-- Witness for C10: removing the first of two images from a product. -/
theorem delete_image_atomic_witness :
    ("images/a.png".toList ∈ imagesOf c10row) ∧
    delete_image_from_product ("VE60600001".toList) ("images/a.png".toList) c10state =
      (true, { c10state with active := [] ++
        { c10row with imagePaths := joinSemi ((imagesOf c10row).erase ("images/a.png".toList)) } :: [] }) ∧
    imagesOf { c10row with imagePaths := joinSemi ((imagesOf c10row).erase ("images/a.png".toList)) } =
      (imagesOf c10row).erase ("images/a.png".toList) :=
  ⟨by decide,
    ((delete_image_atomic c10state ("VE60600001".toList) ("images/a.png".toList)).2
      [] c10row [] (by decide) (by decide) (by decide) (by decide)).2 (by decide) (by decide)⟩
